import Mathlib

/-!
Verification of the jstaskZod user/weather pipeline.

The development shallowly embeds the repository's core: the Zod user
schemas (`src/services/user.schemas.ts` and the compiled
`dist/services/user.schemas.js`), the retry executor
(`src/utils/retry-helper.ts`), the user service
(`src/services/user-service.ts` and `dist/services/user-service.js`) and
the user-weather converter (`src/converters/user-weather-converter.ts`
and its compiled variant).

JavaScript runtime values are modelled by `JSValue`; thrown values by
`JSError` (an `Error` instance carrying a message, or any other thrown
value).  Asynchronous external collaborators (HTTP fetch, geocoding,
weather) are modelled as functions producing `Except JSError _`; an
operation invoked repeatedly by the retry loop is modelled as a function
from the invocation index (1-based) to its outcome.  The cache store
(`CacheManager`, an external key-value collaborator whose source is not
part of the core) is modelled from the spec as the `Option JSValue`
state of the single "users" key, with get/set/remove the evident state
operations.
-/

/-- A JavaScript runtime value (the subset the program manipulates). -/
inductive JSValue : Type where
  | str (s : String)
  | num (n : Int)
  | bool (b : Bool)
  | null
  | undefined
  | arr (elems : List JSValue)
  | obj (fields : List (String × JSValue))
  deriving Repr

/-- JavaScript truthiness: `null`, `undefined`, `false`, `0` and `""` are
falsy; every object and array (even empty) is truthy. -/
def jsTruthy : JSValue → Bool
  | .str s => s ≠ ""
  | .num n => n ≠ 0
  | .bool b => b
  | .null => false
  | .undefined => false
  | .arr _ => true
  | .obj _ => true

/-- Property lookup on a field list: a missing key reads as `undefined`. -/
def getField (fields : List (String × JSValue)) (k : String) : JSValue :=
  match fields.lookup k with
  | some v => v
  | none => JSValue.undefined

/-- Evaluation of `v[k]` in JavaScript: property access on `null` or
`undefined` throws a `TypeError` (modelled as `Except.error ()`); access
on a primitive or an array yields `undefined` for the keys the program
uses; access on an object looks the key up. -/
def jsProp (v : JSValue) (k : String) : Except Unit JSValue :=
  match v with
  | .null => Except.error ()
  | .undefined => Except.error ()
  | .obj fields => Except.ok (getField fields k)
  | _ => Except.ok JSValue.undefined

mutual

/-- JavaScript string coercion `String(v)` (array elements are joined
with commas, objects print as `[object Object]`). -/
def jsToString : JSValue → String
  | .str s => s
  | .num n => toString n
  | .bool b => if b then "true" else "false"
  | .null => "null"
  | .undefined => "undefined"
  | .arr vs => String.intercalate "," (jsToStringList vs)
  | .obj _ => "[object Object]"

/-- String coercions of a list of values. -/
def jsToStringList : List JSValue → List String
  | [] => []
  | v :: vs => jsToString v :: jsToStringList vs

end

/-- A thrown JavaScript value: either an `Error` instance (identified by
its message) or any non-`Error` value. -/
inductive JSError : Type where
  | error (message : String)
  | other (v : JSValue)
  deriving Repr

/-- The normalization `error instanceof Error ? error : new Error(String(error))`
that `retryApiCall` applies to every caught value
(`src/utils/retry-helper.ts:91`). -/
def normalizeError : JSError → JSError
  | .error m => JSError.error m
  | .other v => JSError.error (jsToString v)

/-- Whether an `Except` is a success. -/
def exceptOk : Except ε α → Bool
  | .ok _ => true
  | .error _ => false

/-! ## Schema Validator (user.schemas.ts / user.schemas.js)

The Zod schemas are embedded as parse functions returning `Option`:
`none` models a thrown `ZodError`.  Zod checks run in declaration order:
`z.string().min(1).trim()` first requires the value to be a string,
then checks `min(1)` on the *untrimmed* string, and only then applies
the `trim` transform to produce the output.  URL syntax checking
(`z.string().url()`) is delegated to an abstract predicate
`isURL : String → Bool`, the behavior of the runtime URL parser. -/

structure UserName : Type where
  first : String
  last : String
  deriving Repr, DecidableEq

structure UserLocation : Type where
  city : String
  country : String
  deriving Repr, DecidableEq

structure UserPicture : Type where
  large : String
  deriving Repr, DecidableEq

/-- Parsed output of `UserSchema` (the inferred `User` type). -/
structure User : Type where
  name : UserName
  location : UserLocation
  picture : UserPicture
  deriving Repr, DecidableEq

/-- Whitespace as trimmed by `String.prototype.trim` (the characters
the program's inputs can contain). -/
def isJsWhitespace (c : Char) : Bool :=
  c = ' ' ∨ c = '\t' ∨ c = '\n' ∨ c = '\r' ∨ c = '\x0b' ∨ c = '\x0c' ∨ c = ' '

/-- JavaScript `String.prototype.trim`: strip leading and trailing
whitespace. -/
def jsTrim (s : String) : String :=
  ⟨((s.data.dropWhile isJsWhitespace).reverse.dropWhile isJsWhitespace).reverse⟩

/-- Parse for `z.string().min(1).trim()`: the value must be a string of
length at least 1 (checked before trimming); the output is the trimmed
string. -/
def parseMinTrim : JSValue → Option String
  | .str s => if 1 ≤ s.length then some (jsTrim s) else none
  | _ => none

/-- Parse for `z.string().url()` with URL syntax decided by `isURL`. -/
def parseURLField (isURL : String → Bool) : JSValue → Option String
  | .str s => if isURL s then some s else none
  | _ => none

/-- Require a `z.object` input to be a plain object. -/
def asObj : JSValue → Option (List (String × JSValue))
  | .obj fields => some fields
  | _ => none

/-- Parse for the `name` sub-schema of `UserSchema`. -/
def parseUserName (v : JSValue) : Option UserName :=
  match asObj v with
  | none => none
  | some fields =>
    match parseMinTrim (getField fields "first"), parseMinTrim (getField fields "last") with
    | some f, some l => some ⟨f, l⟩
    | _, _ => none

/-- Parse for the `location` sub-schema of `UserSchema`. -/
def parseUserLocation (v : JSValue) : Option UserLocation :=
  match asObj v with
  | none => none
  | some fields =>
    match parseMinTrim (getField fields "city"), parseMinTrim (getField fields "country") with
    | some c, some co => some ⟨c, co⟩
    | _, _ => none

/-- Parse for the `picture` sub-schema of `UserSchema`. -/
def parseUserPicture (isURL : String → Bool) (v : JSValue) : Option UserPicture :=
  match asObj v with
  | none => none
  | some fields =>
    match parseURLField isURL (getField fields "large") with
    | some u => some ⟨u⟩
    | none => none

/-- Embedding of `validateUser` / `UserSchema.parse`: succeeds exactly
when Zod validation succeeds, returning the transformed (trimmed)
output object. -/
def parseUser (isURL : String → Bool) (v : JSValue) : Option User :=
  match asObj v with
  | none => none
  | some fields =>
    match parseUserName (getField fields "name"),
          parseUserLocation (getField fields "location"),
          parseUserPicture isURL (getField fields "picture") with
    | some n, some l, some p => some ⟨n, l, p⟩
    | _, _, _ => none

/-- Element-wise parse of `z.array(UserSchema)` contents. -/
def parseUserList (isURL : String → Bool) : List JSValue → Option (List User)
  | [] => some []
  | v :: vs =>
    match parseUser isURL v, parseUserList isURL vs with
    | some u, some us => some (u :: us)
    | _, _ => none

/-- Embedding of `validateUsers` / `UsersArraySchema.parse`
(`z.array(UserSchema).min(1)`, `dist/services/user.schemas.js`): the
input must be an array of at least one element, each validating against
`UserSchema`. -/
def parseUsers (isURL : String → Bool) (v : JSValue) : Option (List User) :=
  match v with
  | .arr elems =>
    if 1 ≤ elems.length then parseUserList isURL elems else none
  | _ => none

/-- Parsed output of `UserApiResponseSchema`. -/
structure ApiResponse : Type where
  results : List User
  deriving Repr, DecidableEq

/-- Embedding of `validateApiResponse` / `UserApiResponseSchema.parse`
(`z.object({results: z.array(UserSchema).min(1)})`,
`src/services/user.schemas.ts`). -/
def parseApiResponse (isURL : String → Bool) (v : JSValue) : Option ApiResponse :=
  match asObj v with
  | none => none
  | some fields =>
    match getField fields "results" with
    | .arr elems =>
      if 1 ≤ elems.length then
        match parseUserList isURL elems with
        | some us => some ⟨us⟩
        | none => none
      else none
    | _ => none

/-- The JavaScript object a parsed `User` denotes (Zod constructs the
output object with exactly the declared keys). -/
def userToJS (u : User) : JSValue :=
  JSValue.obj
    [("name", JSValue.obj [("first", JSValue.str u.name.first), ("last", JSValue.str u.name.last)]),
     ("location", JSValue.obj [("city", JSValue.str u.location.city), ("country", JSValue.str u.location.country)]),
     ("picture", JSValue.obj [("large", JSValue.str u.picture.large)])]

/-- Embedding of `getLocationQuery` (`src/services/user.schemas.ts`):
the template `"city, country"`. -/
def getLocationQuery (u : User) : String :=
  u.location.city ++ ", " ++ u.location.country

/-- A field entry when the optional string is present, nothing when it
is absent; used to build raw user inputs with selectively missing
fields. -/
def strEntry (k : String) : Option String → List (String × JSValue)
  | some s => [(k, JSValue.str s)]
  | none => []

/-- A raw user input object whose five leaf fields are present exactly
when the corresponding option is `some`. -/
def mkRawUser (f l c co url : Option String) : JSValue :=
  JSValue.obj
    [("name", JSValue.obj (strEntry "first" f ++ strEntry "last" l)),
     ("location", JSValue.obj (strEntry "city" c ++ strEntry "country" co)),
     ("picture", JSValue.obj (strEntry "large" url))]

/-- A concrete URL-syntax predicate used to instantiate witnesses. -/
def isURL0 (s : String) : Bool :=
  s == "https://example.com/a.jpg"

/-! ## User-Weather Converter (user-weather-converter.ts / .js)

Geocoding and weather clients are external collaborators, modelled as
functions returning `Except JSError _`. -/

structure Coordinates : Type where
  lat : Int
  lng : Int
  deriving Repr, DecidableEq

structure WeatherData : Type where
  temperature : Int
  condition : String
  humidity : Int
  stale : Bool
  deriving Repr, DecidableEq

/-- Result type of the converter: the `user` key always holds a value
(the raw input in the catch branches, the validated object on the
success path); `weather` is `none` when conversion degraded. -/
structure UserWeatherData : Type where
  user : JSValue
  weather : Option WeatherData

/-- Embedding of `UserWeatherConverter.convertUserToUserWeatherData`
(`src/converters/user-weather-converter.ts`): validate, geocode the
location query, fetch weather; any failure is caught and yields the raw
input user with `weather: null`. -/
def convertUserToUserWeatherData (isURL : String → Bool)
    (geo : String → Except JSError Coordinates)
    (wx : Int → Int → Except JSError WeatherData)
    (user : JSValue) : UserWeatherData :=
  match parseUser isURL user with
  | none => ⟨user, none⟩
  | some vu =>
    match geo (getLocationQuery vu) with
    | .error _ => ⟨user, none⟩
    | .ok c =>
      match wx c.lat c.lng with
      | .error _ => ⟨user, none⟩
      | .ok w => ⟨userToJS vu, some w⟩

/-- Embedding of the compiled converter variant
(`dist/converters/user-weather-converter.js`): it additionally funnels
the validated user through `UserUtils.getFullName` /
`UserUtils.getLocationQuery`, which re-validate the already-validated
object; a `ZodError` from that re-validation (possible when a trimmed
field became empty) is caught like a validation failure. -/
def convertUserToUserWeatherDataC (isURL : String → Bool)
    (geo : String → Except JSError Coordinates)
    (wx : Int → Int → Except JSError WeatherData)
    (user : JSValue) : UserWeatherData :=
  match parseUser isURL user with
  | none => ⟨user, none⟩
  | some vu =>
    match parseUser isURL (userToJS vu) with
    | none => ⟨user, none⟩
    | some vu2 =>
      match geo (getLocationQuery vu2) with
      | .error _ => ⟨user, none⟩
      | .ok c =>
        match wx c.lat c.lng with
        | .error _ => ⟨user, none⟩
        | .ok w => ⟨userToJS vu, some w⟩

/-- Embedding of `UserWeatherConverter.convertUsersToUserWeatherData`
(`dist/converters/user-weather-converter.js`): validate the whole array
with `UserValidator.validateUsers`; a `ZodError` is rethrown as
`new Error("Invalid users array: ...")`; otherwise every validated
element is converted (the element conversions never throw) and the
results are assembled in input order. -/
def convertUsersToUserWeatherData (isURL : String → Bool)
    (geo : String → Except JSError Coordinates)
    (wx : Int → Int → Except JSError WeatherData)
    (users : JSValue) : Except JSError (List UserWeatherData) :=
  match parseUsers isURL users with
  | none => Except.error (JSError.error "Invalid users array")
  | some vus =>
    Except.ok (vus.map (fun vu => convertUserToUserWeatherDataC isURL geo wx (userToJS vu)))

/-! ## Retry Executor (src/utils/retry-helper.ts)

The wrapped asynchronous operation is modelled as a function from the
1-based invocation index and the current external state to an outcome
and a new state (the user-service operation mutates the cache).  The
loop `for (let attempt = 1; attempt <= maxAttempts; attempt++)` runs
`max(maxAttempts, 0)` iterations; it is embedded with the remaining
iteration count as fuel.  The result carries the final state, the list
of backoff delays actually slept (in order), and the number of times
the operation was invoked. -/

structure RetryOptions : Type where
  maxAttempts : Int
  baseDelay : Nat
  maxDelay : Nat
  deriving Repr, DecidableEq

/-- One backoff delay: `Math.min(baseDelay * Math.pow(2, attempt - 1), maxDelay)`
(`src/utils/retry-helper.ts:101`). -/
def backoffDelay (baseDelay maxDelay attempt : Nat) : Nat :=
  min (baseDelay * 2 ^ (attempt - 1)) maxDelay

/-- The retry loop from the iteration with index `attempt`, with
`fuel` iterations remaining and `lastError` as set so far. -/
def retryGo (op : Nat → σ → Except JSError α × σ) (baseDelay maxDelay : Nat)
    (attempt : Nat) (fuel : Nat) (lastError : JSError) (s : σ) :
    Except JSError α × σ × List Nat × Nat :=
  match fuel with
  | 0 => (Except.error lastError, s, [], 0)
  | fuel1 + 1 =>
    match op attempt s with
    | (.ok v, s1) => (Except.ok v, s1, [], 1)
    | (.error e, s1) =>
      let le := normalizeError e
      if fuel1 = 0 then
        (Except.error le, s1, [], 1)
      else
        let rest := retryGo op baseDelay maxDelay (attempt + 1) fuel1 le s1
        (rest.1, rest.2.1, backoffDelay baseDelay maxDelay attempt :: rest.2.2.1, rest.2.2.2 + 1)

/-- Embedding of `RetryHelper.retryApiCall`
(`src/utils/retry-helper.ts:79-111`): `lastError` starts as the
placeholder `new Error("Unknown error")`; the loop starts at attempt 1
and runs at most `maxAttempts` iterations; after the loop the (then
current) `lastError` is thrown. -/
def retryApiCall (op : Nat → σ → Except JSError α × σ) (opts : RetryOptions)
    (s : σ) : Except JSError α × σ × List Nat × Nat :=
  retryGo op opts.baseDelay opts.maxDelay 1 opts.maxAttempts.toNat
    (JSError.error "Unknown error") s

/-! ## User Service (src/services/user-service.ts, part of dist variant)

The cache is the state of the single `CacheManager.CACHE_KEYS.USERS`
entry.  Modelled from the spec: `CacheManager` (section 4.3, an
external key-value collaborator whose source is not under `src/`) is a
plain keyed store — `getItem` reads the entry (`null` when absent),
`setItem` overwrites it, `removeItem` deletes it; the state of the one
relevant key is an `Option JSValue`.  The HTTP fetch
(`APIHelper.fetchData`) is modelled as a function from the invocation
index to the decoded JSON body or a thrown error. -/

/-- One attempt of the operation `fetchFreshUsers` passes to
`retryApiCall` (`src/services/user-service.ts:20-51`): fetch the raw
body, validate it with `validateApiResponse` (a `ZodError` becomes
`new Error("Invalid user data from API: ...")`), write the validated
users to the cache, and return them. -/
def fetchUsersOp (isURL : String → Bool) (fetch : Nat → Except JSError JSValue)
    (attempt : Nat) (cache : Option JSValue) :
    Except JSError (List User) × Option JSValue :=
  match fetch attempt with
  | .error e => (Except.error e, cache)
  | .ok raw =>
    match parseApiResponse isURL raw with
    | none => (Except.error (JSError.error "Invalid user data from API"), cache)
    | some resp =>
      (Except.ok resp.results, some (JSValue.arr (resp.results.map userToJS)))

/-- Embedding of `UserService.fetchFreshUsers`
(`src/services/user-service.ts:13-59`): remove the users cache entry,
then run the fetch-validate-cache operation under `retryApiCall`.
Returns the outcome, the final cache state, the delays slept and the
number of network attempts made. -/
def fetchFreshUsers (isURL : String → Bool) (fetch : Nat → Except JSError JSValue)
    (opts : RetryOptions) (cache : Option JSValue) :
    Except JSError (List User) × Option JSValue × List Nat × Nat :=
  let cacheCleared : Option JSValue := none
  retryApiCall (fetchUsersOp isURL fetch) opts cacheCleared

/-- The condition
`rawCached.length > 0 && rawCached[0].name && rawCached[0].location`
(`src/services/user-service.ts:76`), including the possible `TypeError`
when the first element is `null` or `undefined`. -/
def basicLooksLikeUsers (elems : List JSValue) : Except Unit Bool :=
  match elems with
  | [] => Except.ok false
  | e0 :: _ =>
    match jsProp e0 "name" with
    | .error _ => Except.error ()
    | .ok nv =>
      if jsTruthy nv then
        match jsProp e0 "location" with
        | .error _ => Except.error ()
        | .ok lv => Except.ok (jsTruthy lv)
      else Except.ok false

/-- Embedding of `UserService.getCachedUsers`
(`src/services/user-service.ts:65-91`): a cached value rejected by the
guard `!rawCached || !Array.isArray(rawCached)` — that is, a falsy or
non-array value (arrays are always truthy) — yields `null` with the
entry left in place; an array passing the basic shape check is returned
as-is (no schema validation); an array failing it — or throwing a
`TypeError` during the check — is removed and `null` returned.
Result: the returned value (the array elements) and the new cache
state. -/
def getCachedUsers (cache : Option JSValue) :
    Option (List JSValue) × Option JSValue :=
  match cache.getD JSValue.null with
  | .arr elems =>
    match basicLooksLikeUsers elems with
    | .error _ => (none, none)
    | .ok true => (some elems, cache)
    | .ok false => (none, none)
  | _ => (none, cache)

/-- Embedding of the compiled `UserService.getCachedUsers`
(`dist/services/user-service.js:64-90`): a falsy cached value yields
`null` with the entry left in place; otherwise the value is validated
with `safeValidateUsers` — on failure the entry is removed and `null`
returned, on success the validated users are returned. -/
def getCachedUsersC (isURL : String → Bool) (cache : Option JSValue) :
    Option (List User) × Option JSValue :=
  if jsTruthy (cache.getD JSValue.null) then
    match parseUsers isURL (cache.getD JSValue.null) with
    | none => (none, none)
    | some us => (some us, cache)
  else (none, cache)

/-- Embedding of `UserService.getUsers`
(`src/services/user-service.ts:98-113`): read the cache via
`getCachedUsers`; when it returned a value with at least `count`
entries, return the first `count` of them; otherwise fall back to
`fetchFreshUsers`.  Returns the outcome (as JavaScript values), the
final cache state, and the number of network attempts made. -/
def getUsers (isURL : String → Bool) (fetch : Nat → Except JSError JSValue)
    (opts : RetryOptions) (count : Nat) (cache : Option JSValue) :
    Except JSError (List JSValue) × Option JSValue × Nat :=
  let rc := getCachedUsers cache
  match rc.1 with
  | some elems =>
    if count ≤ elems.length then
      (Except.ok (elems.take count), rc.2, 0)
    else
      let fr := fetchFreshUsers isURL fetch opts rc.2
      (fr.1.map (fun us => us.map userToJS), fr.2.1, fr.2.2.2)
  | none =>
    let fr := fetchFreshUsers isURL fetch opts rc.2
    (fr.1.map (fun us => us.map userToJS), fr.2.1, fr.2.2.2)

/-! ## Supporting lemmas -/

/-- Whether an optional leaf field would pass `z.string().min(1)`:
present with untrimmed length at least 1. -/
def leafOk : Option String → Bool
  | some s => decide (1 ≤ s.length)
  | none => false

/-- Whether an optional leaf field would pass `z.string().url()`. -/
def urlLeafOk (isURL : String → Bool) : Option String → Bool
  | some s => isURL s
  | none => false

/-- Characterization of `validateUser` on an arbitrary raw user object:
it succeeds exactly when all five leaf fields are present, the four
name/location strings have untrimmed length at least 1, and the picture
URL passes the URL check; the output carries the trimmed strings. -/
theorem parseUser_mkRawUser (isURL : String → Bool) (fo lo co1 co2 uo : Option String) :
    parseUser isURL (mkRawUser fo lo co1 co2 uo)
      = if leafOk fo = true ∧ leafOk lo = true ∧ leafOk co1 = true ∧ leafOk co2 = true
           ∧ urlLeafOk isURL uo = true
        then some ⟨⟨jsTrim (fo.getD ""), jsTrim (lo.getD "")⟩,
                   ⟨jsTrim (co1.getD ""), jsTrim (co2.getD "")⟩, ⟨uo.getD ""⟩⟩
        else none := by
  cases fo <;> cases lo <;> cases co1 <;> cases co2 <;> cases uo <;>
    simp [mkRawUser, parseUser, asObj, parseUserName, parseUserLocation, parseUserPicture,
          parseMinTrim, parseURLField, getField, strEntry, leafOk, urlLeafOk, List.lookup] <;>
    split_ifs <;> simp_all

/-- Successful element-wise array validation preserves the length. -/
theorem parseUserList_length (isURL : String → Bool) :
    ∀ (vs : List JSValue) (us : List User),
    parseUserList isURL vs = some us → us.length = vs.length := by
  intro vs
  induction vs with
  | nil => intro us h; simp [parseUserList] at h; simp [← h]
  | cons v vt ih =>
    intro us h
    simp only [parseUserList] at h
    rcases hv : parseUser isURL v with _ | u <;> rw [hv] at h
    · simp at h
    · rcases ht : parseUserList isURL vt with _ | ut <;> rw [ht] at h
      · simp at h
      · simp at h
        simp [← h, ih ut ht]

/-- Successful element-wise array validation is pointwise: the i-th
output is the validation of the i-th input. -/
theorem parseUserList_get (isURL : String → Bool) :
    ∀ (vs : List JSValue) (us : List User),
    parseUserList isURL vs = some us →
    ∀ i (hi : i < vs.length) (hu : i < us.length),
      parseUser isURL (vs.get ⟨i, hi⟩) = some (us.get ⟨i, hu⟩) := by
  intro vs
  induction vs with
  | nil => intro us _ i hi; simp at hi
  | cons v vt ih =>
    intro us h i hi hu
    simp only [parseUserList] at h
    rcases hv : parseUser isURL v with _ | u <;> rw [hv] at h
    · simp at h
    · rcases ht : parseUserList isURL vt with _ | ut <;> rw [ht] at h
      · simp at h
      · simp at h
        subst h
        cases i with
        | zero => simpa using hv
        | succ j =>
          have hj : j < vt.length := by simpa using hi
          have hju : j < ut.length := by simpa using hu
          simpa using ih ut ht j hj hju

/-- Behavior of the retry loop over a state-independent operation, for
positive fuel: at least one and at most `fuel` invocations happen; the
slept delays are exactly the capped exponential backoffs of the failed
non-final attempts; and a success outcome is the outcome of the last
invocation, all earlier invocations having failed. -/
theorem retryGo_pure_spec (op : Nat → Except JSError α) (b m : Nat) :
    ∀ (fuel attempt : Nat) (le : JSError), 1 ≤ fuel →
    1 ≤ (retryGo (fun k s => (op k, s)) b m attempt fuel le ()).2.2.2
    ∧ (retryGo (fun k s => (op k, s)) b m attempt fuel le ()).2.2.2 ≤ fuel
    ∧ (retryGo (fun k s => (op k, s)) b m attempt fuel le ()).2.2.1
        = (List.range ((retryGo (fun k s => (op k, s)) b m attempt fuel le ()).2.2.2 - 1)).map
            (fun i => backoffDelay b m (attempt + i))
    ∧ (∀ v, (retryGo (fun k s => (op k, s)) b m attempt fuel le ()).1 = Except.ok v →
        op (attempt + (retryGo (fun k s => (op k, s)) b m attempt fuel le ()).2.2.2 - 1) = Except.ok v
        ∧ ∀ k, attempt ≤ k → k < attempt + (retryGo (fun k s => (op k, s)) b m attempt fuel le ()).2.2.2 - 1 →
            ∃ e, op k = Except.error e) := by
  intro fuel
  induction fuel with
  | zero => intro attempt le h; omega
  | succ f ih =>
    intro attempt le _
    cases hop : op attempt with
    | ok v =>
      simp only [retryGo, hop]
      refine ⟨le_refl 1, by omega, by simp, ?_⟩
      intro w hw
      simp only [Nat.add_sub_cancel]
      refine ⟨hop.trans (by simpa using hw), ?_⟩
      intro k hk1 hk2
      omega
    | error e =>
      by_cases hf : f = 0
      · subst hf
        simp only [retryGo, hop]
        refine ⟨by simp, by simp, by simp, ?_⟩
        intro w hw
        simp at hw
      · obtain ⟨ih1, ih2, ih3, ih4⟩ := ih (attempt + 1) (normalizeError e) (by omega)
        simp only [retryGo, hop, if_neg hf]
        set rest := retryGo (fun k s => (op k, s)) b m (attempt + 1) f (normalizeError e) () with hrest
        refine ⟨by omega, by omega, ?_, ?_⟩
        · have hn : rest.2.2.2 - 1 + 1 = rest.2.2.2 := by omega
          calc backoffDelay b m attempt :: rest.2.2.1
              = backoffDelay b m attempt
                :: (List.range (rest.2.2.2 - 1)).map (fun i => backoffDelay b m (attempt + 1 + i)) := by
                rw [ih3]
            _ = (List.range (rest.2.2.2 + 1 - 1)).map (fun i => backoffDelay b m (attempt + i)) := by
                have : rest.2.2.2 + 1 - 1 = (rest.2.2.2 - 1) + 1 := by omega
                rw [this, List.range_succ_eq_map]
                simp only [List.map_cons, List.map_map, Nat.add_zero]
                refine congrArg _ (List.map_congr_left ?_)
                intro i _
                simp only [Function.comp_apply]
                congr 1
                omega
        · intro v hv
          obtain ⟨hok, hprev⟩ := ih4 v hv
          have hidx : attempt + (rest.2.2.2 + 1) - 1 = attempt + 1 + rest.2.2.2 - 1 := by omega
          refine ⟨by rw [hidx]; exact hok, ?_⟩
          intro k hk1 hk2
          rcases Nat.eq_or_lt_of_le hk1 with rfl | hk
          · exact ⟨e, hop⟩
          · exact hprev k (by omega) (by omega)

/-- When invocation j is the first to succeed within the fuel range,
the retry loop stops there and returns its result, having made exactly
j - attempt + 1 invocations. -/
theorem retryGo_pure_first_ok (op : Nat → Except JSError α) (b m : Nat) :
    ∀ (fuel attempt : Nat) (le : JSError) (j : Nat) (v : α),
    attempt ≤ j → j < attempt + fuel → op j = Except.ok v →
    (∀ k, attempt ≤ k → k < j → ∃ e, op k = Except.error e) →
    (retryGo (fun k s => (op k, s)) b m attempt fuel le ()).1 = Except.ok v
    ∧ (retryGo (fun k s => (op k, s)) b m attempt fuel le ()).2.2.2 = j - attempt + 1 := by
  intro fuel
  induction fuel with
  | zero => intro attempt le j v h1 h2; omega
  | succ f ih =>
    intro attempt le j v hj1 hj2 hop hprev
    rcases Nat.eq_or_lt_of_le hj1 with rfl | hlt
    · simp only [retryGo, hop]
      exact ⟨by simp, by omega⟩
    · obtain ⟨e, he⟩ := hprev attempt (le_refl attempt) hlt
      have hf : ¬ f = 0 := by omega
      simp only [retryGo, he, if_neg hf]
      obtain ⟨ihok, ihn⟩ := ih (attempt + 1) (normalizeError e) j v (by omega) (by omega) hop
        (fun k hk1 hk2 => hprev k (by omega) hk2)
      refine ⟨ihok, ?_⟩
      rw [ihn]
      omega

/-- When every invocation in range fails, the retry loop ends with the
normalization of the error of the final invocation. -/
theorem retryGo_pure_allfail (op : Nat → Except JSError α) (b m : Nat) :
    ∀ (fuel attempt : Nat) (le : JSError), 1 ≤ fuel →
    (∀ k, attempt ≤ k → k < attempt + fuel → ∃ e, op k = Except.error e) →
    ∃ e, op (attempt + fuel - 1) = Except.error e ∧
      (retryGo (fun k s => (op k, s)) b m attempt fuel le ()).1
        = Except.error (normalizeError e) := by
  intro fuel
  induction fuel with
  | zero => intro attempt le h; omega
  | succ f ih =>
    intro attempt le _ hall
    obtain ⟨e, hop⟩ := hall attempt (le_refl attempt) (by omega)
    by_cases hf : f = 0
    · subst hf
      refine ⟨e, by simpa using hop, ?_⟩
      simp [retryGo, hop]
    · obtain ⟨e1, he1, hres⟩ := ih (attempt + 1) (normalizeError e) (by omega)
        (fun k hk1 hk2 => hall k (by omega) (by omega))
      refine ⟨e1, ?_, ?_⟩
      · have : attempt + (f + 1) - 1 = attempt + 1 + f - 1 := by omega
        rw [this]; exact he1
      · simp only [retryGo, hop, if_neg hf]
        exact hres

/-- When the operation leaves the state unchanged on failure and the
retry loop fails, the loop leaves the state unchanged. -/
theorem retryGo_state_of_error (op : Nat → σ → Except JSError α × σ) (b m : Nat)
    (hpres : ∀ k s, exceptOk (op k s).1 = false → (op k s).2 = s) :
    ∀ (fuel attempt : Nat) (le : JSError) (s : σ),
    exceptOk (retryGo op b m attempt fuel le s).1 = false →
    (retryGo op b m attempt fuel le s).2.1 = s := by
  intro fuel
  induction fuel with
  | zero => intro attempt le s _; rfl
  | succ f ih =>
    intro attempt le s herr
    rcases hop : op attempt s with ⟨r, s1⟩
    cases r with
    | ok v =>
      exfalso
      simp only [retryGo, hop] at herr
      simp [exceptOk] at herr
    | error e =>
      have hpr : s1 = s := by
        have h2 := hpres attempt s
        rw [hop] at h2
        exact h2 (by simp [exceptOk])
      by_cases hf : f = 0
      · subst hf
        simp only [retryGo, hop]
        simpa using hpr
      · simp only [retryGo, hop, if_neg hf] at herr ⊢
        rw [hpr] at herr ⊢
        exact ih (attempt + 1) (normalizeError e) s herr

/-- When the operation leaves the state unchanged on failure and the
retry loop succeeds, the success and the final state come from one
invocation run on the initial state. -/
theorem retryGo_state_of_ok (op : Nat → σ → Except JSError α × σ) (b m : Nat)
    (hpres : ∀ k s, exceptOk (op k s).1 = false → (op k s).2 = s) :
    ∀ (fuel attempt : Nat) (le : JSError) (s : σ) (v : α),
    (retryGo op b m attempt fuel le s).1 = Except.ok v →
    ∃ k, attempt ≤ k ∧ op k s = (Except.ok v, (retryGo op b m attempt fuel le s).2.1) := by
  intro fuel
  induction fuel with
  | zero => intro attempt le s v h; simp [retryGo] at h
  | succ f ih =>
    intro attempt le s v hok
    rcases hop : op attempt s with ⟨r, s1⟩
    cases r with
    | ok w =>
      simp only [retryGo, hop] at hok ⊢
      refine ⟨attempt, le_refl attempt, ?_⟩
      rw [hop]
      simp at hok
      simp [hok]
    | error e =>
      have hpr : s1 = s := by
        have h2 := hpres attempt s
        rw [hop] at h2
        exact h2 (by simp [exceptOk])
      by_cases hf : f = 0
      · subst hf
        simp only [retryGo, hop] at hok
        simp at hok
      · simp only [retryGo, hop, if_neg hf] at hok ⊢
        rw [hpr] at hok ⊢
        obtain ⟨k, hk1, hk2⟩ := ih (attempt + 1) (normalizeError e) s v hok
        exact ⟨k, by omega, hk2⟩

/-- With positive fuel the retry loop invokes the operation at least
once. -/
theorem retryGo_invocations_pos (op : Nat → σ → Except JSError α × σ) (b m : Nat)
    (fuel attempt : Nat) (le : JSError) (s : σ) (h : 1 ≤ fuel) :
    1 ≤ (retryGo op b m attempt fuel le s).2.2.2 := by
  cases fuel with
  | zero => omega
  | succ f =>
    rcases hop : op attempt s with ⟨r, s1⟩
    cases r with
    | ok v => simp [retryGo, hop]
    | error e =>
      by_cases hf : f = 0
      · subst hf; simp [retryGo, hop]
      · simp [retryGo, hop, if_neg hf]

/-- A failing fetch-validate-cache attempt leaves the cache unchanged:
the cache write happens only after validation succeeded. -/
theorem fetchUsersOp_state_of_error (isURL : String → Bool)
    (fetch : Nat → Except JSError JSValue) (k : Nat) (c : Option JSValue)
    (h : exceptOk (fetchUsersOp isURL fetch k c).1 = false) :
    (fetchUsersOp isURL fetch k c).2 = c := by
  rcases hf : fetch k with e | raw <;> simp only [fetchUsersOp, hf]
  rcases hp : parseApiResponse isURL raw with _ | resp <;> simp only [hp]
  exfalso
  simp only [fetchUsersOp, hf, hp] at h
  simp [exceptOk] at h

/-- A successful fetch-validate-cache attempt leaves the cache holding
exactly the validated users it returns. -/
theorem fetchUsersOp_ok (isURL : String → Bool) (fetch : Nat → Except JSError JSValue)
    (k : Nat) (c c2 : Option JSValue) (us : List User)
    (h : fetchUsersOp isURL fetch k c = (Except.ok us, c2)) :
    c2 = some (JSValue.arr (us.map userToJS)) := by
  rcases hf : fetch k with e | raw <;> simp only [fetchUsersOp, hf] at h
  · simp at h
  · rcases hp : parseApiResponse isURL raw with _ | resp <;> simp only [hp] at h
    · simp at h
    · simp at h
      rw [← h.2, h.1]

/-- When the cache read returns a value, the cache is left unchanged. -/
theorem getCachedUsers_some (cache : Option JSValue) (elems : List JSValue)
    (h : (getCachedUsers cache).1 = some elems) :
    getCachedUsers cache = (some elems, cache) := by
  simp only [getCachedUsers] at h ⊢
  split at h
  next es heq =>
    try simp only [heq]
    split at h <;> simp_all
  next x heq => simp at h

/-! ## Concrete fixtures for witnesses and counterexamples -/

def goodUrl : String := "https://example.com/a.jpg"

def validRawUser : JSValue :=
  mkRawUser (some "Jo") (some "Doe") (some "Paris") (some "France") (some goodUrl)

def validUser0 : User := ⟨⟨"Jo", "Doe"⟩, ⟨"Paris", "France"⟩, ⟨goodUrl⟩⟩

def rawUntrimmed : JSValue :=
  mkRawUser (some "Jo") (some "Doe") (some " Paris ") (some "France") (some goodUrl)

def corruptUsersValue : JSValue :=
  JSValue.arr [JSValue.obj [("name", JSValue.str "x"), ("location", JSValue.str "y")]]

def opFailTwice (k : Nat) : Except JSError Nat :=
  if k = 3 then Except.ok 42 else Except.error (JSError.error "fail")

def opAlwaysFail (_ : Nat) : Except JSError Nat :=
  Except.error (JSError.error "fail")

def geoDown : String → Except JSError Coordinates :=
  fun _ => Except.error (JSError.error "geo down")

def wxDown : Int → Int → Except JSError WeatherData :=
  fun _ _ => Except.error (JSError.error "wx down")

def geoOk : String → Except JSError Coordinates :=
  fun _ => Except.ok ⟨1, 2⟩

def wxOk : Int → Int → Except JSError WeatherData :=
  fun _ _ => Except.ok ⟨20, "clear", 50, false⟩

def fetchFail : Nat → Except JSError JSValue :=
  fun _ => Except.error (JSError.error "net")

/-! ## Claims -/

/-- C1 (amended): validateUser on a raw user object succeeds exactly when
all five leaf fields are present, the four name/location strings are
non-empty BEFORE trimming (the `min(1)` check runs on the untrimmed
string) and `picture.large` passes the URL check; on success the
returned string fields are trimmed of surrounding whitespace but may be
empty (when the raw field was whitespace-only); on failure no partial
value is produced.  The original claim's requirement that fields empty
only after trimming be rejected does not hold. -/
theorem validateUser_spec (isURL : String → Bool) (fo lo co1 co2 uo : Option String) :
    parseUser isURL (mkRawUser fo lo co1 co2 uo)
      = if leafOk fo = true ∧ leafOk lo = true ∧ leafOk co1 = true ∧ leafOk co2 = true
           ∧ urlLeafOk isURL uo = true
        then some ⟨⟨jsTrim (fo.getD ""), jsTrim (lo.getD "")⟩,
                   ⟨jsTrim (co1.getD ""), jsTrim (co2.getD "")⟩, ⟨uo.getD ""⟩⟩
        else none :=
  parseUser_mkRawUser isURL fo lo co1 co2 uo

/-- C1 counterexample: a whitespace-only first name is accepted by
validateUser (its untrimmed length is 1) and the returned first name is
empty after trimming, contradicting the claim that such inputs fail and
that returned fields are non-empty after trimming. -/
theorem validateUser_whitespace_cex :
    parseUser isURL0 (mkRawUser (some " ") (some "Doe") (some "Paris") (some "France") (some "https://example.com/a.jpg"))
      = some ⟨⟨"", "Doe"⟩, ⟨"Paris", "France"⟩, ⟨"https://example.com/a.jpg"⟩⟩
    ∧ jsTrim " " = "" :=
  ⟨rfl, rfl⟩

/-- C2 (confirmed): for any operation and options with maxAttempts at
least 1, retryApiCall invokes the operation between 1 and maxAttempts
times; the slept delays are exactly
min(baseDelay * 2 ^ (k - 1), maxDelay) after each failed attempt
k < the stopping attempt; when the outcome is a success it is the
result of the final invocation, all earlier invocations having failed;
and conversely, when attempt j (within 1..maxAttempts) is the first to
succeed, the executor stops at attempt j and returns exactly that
attempt's result. -/
theorem retryApiCall_backoff_spec (op : Nat → Except JSError α) (opts : RetryOptions)
    (h : 1 ≤ opts.maxAttempts) :
    1 ≤ (retryApiCall (fun k s => (op k, s)) opts ()).2.2.2
    ∧ (retryApiCall (fun k s => (op k, s)) opts ()).2.2.2 ≤ opts.maxAttempts.toNat
    ∧ (retryApiCall (fun k s => (op k, s)) opts ()).2.2.1
        = (List.range ((retryApiCall (fun k s => (op k, s)) opts ()).2.2.2 - 1)).map
            (fun i => min (opts.baseDelay * 2 ^ i) opts.maxDelay)
    ∧ (∀ v, (retryApiCall (fun k s => (op k, s)) opts ()).1 = Except.ok v →
        op (retryApiCall (fun k s => (op k, s)) opts ()).2.2.2 = Except.ok v
        ∧ ∀ k, 1 ≤ k → k < (retryApiCall (fun k s => (op k, s)) opts ()).2.2.2 →
            ∃ e, op k = Except.error e)
    ∧ ∀ j v, 1 ≤ j → j ≤ opts.maxAttempts.toNat → op j = Except.ok v →
        (∀ k, 1 ≤ k → k < j → ∃ e, op k = Except.error e) →
        (retryApiCall (fun k s => (op k, s)) opts ()).1 = Except.ok v
        ∧ (retryApiCall (fun k s => (op k, s)) opts ()).2.2.2 = j := by
  have hfuel : 1 ≤ opts.maxAttempts.toNat := by omega
  obtain ⟨h1, h2, h3, h4⟩ :=
    retryGo_pure_spec op opts.baseDelay opts.maxDelay opts.maxAttempts.toNat 1
      (JSError.error "Unknown error") hfuel
  simp only [retryApiCall]
  refine ⟨h1, h2, ?_, ?_, ?_⟩
  · rw [h3]
    refine List.map_congr_left ?_
    intro i _
    have hi : 1 + i - 1 = i := by omega
    simp only [backoffDelay, hi]
  · intro v hv
    obtain ⟨hok, hprev⟩ := h4 v hv
    have hn : 1 + (retryGo (fun k s => (op k, s)) opts.baseDelay opts.maxDelay 1
        opts.maxAttempts.toNat (JSError.error "Unknown error") ()).2.2.2 - 1
        = (retryGo (fun k s => (op k, s)) opts.baseDelay opts.maxDelay 1
            opts.maxAttempts.toNat (JSError.error "Unknown error") ()).2.2.2 := by
      omega
    rw [hn] at hok hprev
    exact ⟨hok, fun k hk1 hk2 => hprev k hk1 hk2⟩
  · intro j v hj1 hj2 hopj hprevj
    obtain ⟨hok, hn⟩ := retryGo_pure_first_ok op opts.baseDelay opts.maxDelay
      opts.maxAttempts.toNat 1 (JSError.error "Unknown error") j v hj1 (by omega) hopj
      (fun k hk1 hk2 => hprevj k hk1 hk2)
    refine ⟨hok, ?_⟩
    rw [hn]
    omega

/-- C2 witness: with options 3/100/5000 and an operation failing on
attempts 1 and 2 and succeeding on attempt 3, the executor returns the
success value 42 after exactly 3 invocations, having slept 100ms then
200ms. -/
theorem retryApiCall_backoff_witness :
    1 ≤ (⟨3, 100, 5000⟩ : RetryOptions).maxAttempts
    ∧ (retryApiCall (fun k s => (opFailTwice k, s)) ⟨3, 100, 5000⟩ ()).1 = Except.ok 42
    ∧ (retryApiCall (fun k s => (opFailTwice k, s)) ⟨3, 100, 5000⟩ ()).2.2.2 = 3
    ∧ (retryApiCall (fun k s => (opFailTwice k, s)) ⟨3, 100, 5000⟩ ()).2.2.1 = [100, 200] := by
  have h := retryApiCall_backoff_spec opFailTwice ⟨3, 100, 5000⟩ (by decide)
  have hfirst := h.2.2.2.2 3 42 (by decide) (by decide) rfl
    (fun k hk1 hk2 =>
      ⟨JSError.error "fail", by simp only [opFailTwice, if_neg (show ¬ k = 3 by omega)]⟩)
  refine ⟨by decide, hfirst.1, hfirst.2, ?_⟩
  have hds := h.2.2.1
  rw [hfirst.2] at hds
  rw [hds]
  decide

/-- C3 (amended): when every attempt fails, retryApiCall re-raises the
normalization of the value thrown by the final attempt: an Error
instance is re-raised unchanged, but a non-Error thrown value is
replaced by a fresh Error carrying its string coercion, so the original
thrown value is not preserved in general. -/
theorem retryApiCall_final_error_spec (op : Nat → Except JSError α) (opts : RetryOptions)
    (h1 : 1 ≤ opts.maxAttempts)
    (h2 : ∀ k, 1 ≤ k → k ≤ opts.maxAttempts.toNat → ∃ e, op k = Except.error e) :
    (∃ e, op opts.maxAttempts.toNat = Except.error e
       ∧ (retryApiCall (fun k s => (op k, s)) opts ()).1 = Except.error (normalizeError e))
    ∧ (∀ msg, normalizeError (JSError.error msg) = JSError.error msg)
    ∧ (∀ v, normalizeError (JSError.other v) = JSError.error (jsToString v)) := by
  have hfuel : 1 ≤ opts.maxAttempts.toNat := by omega
  obtain ⟨e, he, hres⟩ :=
    retryGo_pure_allfail op opts.baseDelay opts.maxDelay opts.maxAttempts.toNat 1
      (JSError.error "Unknown error") hfuel
      (fun k hk1 hk2 => h2 k hk1 (by omega))
  have hn : 1 + opts.maxAttempts.toNat - 1 = opts.maxAttempts.toNat := by omega
  rw [hn] at he
  exact ⟨⟨e, he, hres⟩, fun _ => rfl, fun _ => rfl⟩

/-- C3 counterexample: an operation that always throws the plain string
value "boom" exhausts a single attempt, and retryApiCall rejects with a
fresh Error whose message is "boom" — a different value and a different
kind than the thrown string. -/
theorem retryApiCall_wrap_cex :
    (retryApiCall (fun _ (s : Unit) =>
        ((Except.error (JSError.other (JSValue.str "boom")) : Except JSError Nat), s))
      ⟨1, 100, 5000⟩ ()).1 = Except.error (JSError.error "boom")
    ∧ JSError.error "boom" ≠ JSError.other (JSValue.str "boom") :=
  ⟨rfl, fun h => JSError.noConfusion h⟩

/-- C3 witness: with two always-failing attempts the final rejection is
the normalization of the error of attempt 2. -/
theorem retryApiCall_final_error_witness :
    ∃ e, opAlwaysFail ((⟨2, 100, 5000⟩ : RetryOptions).maxAttempts.toNat) = Except.error e
      ∧ (retryApiCall (fun k s => (opAlwaysFail k, s)) ⟨2, 100, 5000⟩ ()).1
          = Except.error (normalizeError e) :=
  (retryApiCall_final_error_spec opAlwaysFail ⟨2, 100, 5000⟩ (by decide)
    (fun k _ _ => ⟨JSError.error "fail", rfl⟩)).1

/-- C10 (confirmed): with maxAttempts at most 0 the loop body never
runs: the operation is never invoked (invocation count 0), no delay is
slept, the state is untouched and the call rejects with the
pre-initialized placeholder Error "Unknown error". -/
theorem retryApiCall_nonpositive_attempts (op : Nat → σ → Except JSError α × σ)
    (opts : RetryOptions) (s : σ) (h : opts.maxAttempts ≤ 0) :
    retryApiCall op opts s = (Except.error (JSError.error "Unknown error"), s, [], 0) := by
  have h0 : opts.maxAttempts.toNat = 0 := by omega
  simp [retryApiCall, h0, retryGo]

/-- C10 witness: at maxAttempts 0 an operation that would reject with
"op ran" is never consulted; the rejection carries "Unknown error". -/
theorem retryApiCall_nonpositive_attempts_witness :
    (⟨0, 100, 5000⟩ : RetryOptions).maxAttempts ≤ 0
    ∧ retryApiCall (fun _ (s : Unit) =>
          ((Except.error (JSError.error "op ran") : Except JSError Nat), s)) ⟨0, 100, 5000⟩ ()
        = (Except.error (JSError.error "Unknown error"), (), [], 0) :=
  ⟨by decide, retryApiCall_nonpositive_attempts _ ⟨0, 100, 5000⟩ () (by decide)⟩

/-- C4 (confirmed): the converter is total — it always returns a
UserWeatherData record (so a user key is always present, holding either
the raw input or the validated object) — and its weather field is none
exactly when user validation failed, or the geocoding call failed, or
the weather call failed. -/
theorem convertUser_weather_iff (isURL : String → Bool)
    (geo : String → Except JSError Coordinates) (wx : Int → Int → Except JSError WeatherData)
    (user : JSValue) :
    ((convertUserToUserWeatherData isURL geo wx user).weather = none ↔
      parseUser isURL user = none
      ∨ ∃ vu, parseUser isURL user = some vu ∧
          (exceptOk (geo (getLocationQuery vu)) = false
           ∨ ∃ c, geo (getLocationQuery vu) = Except.ok c ∧ exceptOk (wx c.lat c.lng) = false))
    ∧ ((convertUserToUserWeatherData isURL geo wx user).user = user
       ∨ ∃ vu, parseUser isURL user = some vu
           ∧ (convertUserToUserWeatherData isURL geo wx user).user = userToJS vu) := by
  rcases hp : parseUser isURL user with _ | vu
  · simp [convertUserToUserWeatherData, hp]
  · rcases hg : geo (getLocationQuery vu) with e | c
    · simp [convertUserToUserWeatherData, hp, hg, exceptOk]
    · rcases hw : wx c.lat c.lng with e2 | w
      · simp [convertUserToUserWeatherData, hp, hg, hw, exceptOk]
      · simp [convertUserToUserWeatherData, hp, hg, hw, exceptOk]

/-- C5 (amended): when validation succeeds and the geocoding or weather
call then fails, the converter returns the RAW input user object with
weather none — not the validated (trimmed) user the claim describes. -/
theorem convertUser_downstream_failure_raw (isURL : String → Bool)
    (geo : String → Except JSError Coordinates) (wx : Int → Int → Except JSError WeatherData)
    (user : JSValue) (vu : User)
    (hv : parseUser isURL user = some vu)
    (hfail : exceptOk (geo (getLocationQuery vu)) = false
             ∨ ∃ c, geo (getLocationQuery vu) = Except.ok c ∧ exceptOk (wx c.lat c.lng) = false) :
    convertUserToUserWeatherData isURL geo wx user = ⟨user, none⟩ := by
  simp only [convertUserToUserWeatherData, hv]
  rcases hfail with hg | ⟨c, hc, hw⟩
  · rcases hgg : geo (getLocationQuery vu) with e | c
    · rfl
    · rw [hgg] at hg
      simp [exceptOk] at hg
  · rcases hww : wx c.lat c.lng with e | w
    · simp only [hc, hww]
    · rw [hww] at hw
      simp [exceptOk] at hw

/-- C5 counterexample: a valid user with an untrimmed city, under a
failing geocoder, is returned raw: the returned user's location.city is
" Paris " while the validated user's is "Paris", so the converter does
not return the validated user. -/
theorem convertUser_returns_raw_cex :
    parseUser isURL0 rawUntrimmed
      = some ⟨⟨"Jo", "Doe"⟩, ⟨"Paris", "France"⟩, ⟨"https://example.com/a.jpg"⟩⟩
    ∧ convertUserToUserWeatherData isURL0 geoDown wxDown rawUntrimmed = ⟨rawUntrimmed, none⟩
    ∧ jsProp (convertUserToUserWeatherData isURL0 geoDown wxDown rawUntrimmed).user "location"
        = Except.ok (JSValue.obj [("city", JSValue.str " Paris "), ("country", JSValue.str "France")])
    ∧ jsProp (userToJS ⟨⟨"Jo", "Doe"⟩, ⟨"Paris", "France"⟩, ⟨"https://example.com/a.jpg"⟩⟩) "location"
        = Except.ok (JSValue.obj [("city", JSValue.str "Paris"), ("country", JSValue.str "France")])
    ∧ (" Paris " : String) ≠ "Paris" :=
  ⟨rfl, rfl, rfl, rfl, by decide⟩

/-- C5 witness: a concrete valid user under a failing geocoder yields
the raw input with weather none. -/
theorem convertUser_downstream_failure_raw_witness :
    convertUserToUserWeatherData isURL0 geoDown wxDown validRawUser = ⟨validRawUser, none⟩ :=
  convertUser_downstream_failure_raw isURL0 geoDown wxDown validRawUser validUser0 rfl
    (Or.inl rfl)

/-- C6 (amended): convertAll validates the whole input against the
users-array schema first and fails fast — the batch aborts with an
error not only when the input is not an array or is empty, but also
when ANY ELEMENT fails user schema validation; when that whole-array
validation succeeds the batch never fails: it returns one result per
input element, in input order, each element being the (total, absorbing)
conversion of the corresponding validated user, so a per-element
downstream failure only nulls that element's weather. -/
theorem convertUsers_batch_spec (isURL : String → Bool)
    (geo : String → Except JSError Coordinates) (wx : Int → Int → Except JSError WeatherData)
    (users : JSValue) :
    (parseUsers isURL users = none →
        convertUsersToUserWeatherData isURL geo wx users
          = Except.error (JSError.error "Invalid users array"))
    ∧ ∀ vus, parseUsers isURL users = some vus →
        ∃ l, convertUsersToUserWeatherData isURL geo wx users = Except.ok l
          ∧ l.length = vus.length
          ∧ (∀ raws, users = JSValue.arr raws → l.length = raws.length)
          ∧ ∀ i (hi : i < l.length) (hv : i < vus.length),
              l.get ⟨i, hi⟩
                = convertUserToUserWeatherDataC isURL geo wx (userToJS (vus.get ⟨i, hv⟩)) := by
  constructor
  · intro h
    simp [convertUsersToUserWeatherData, h]
  · intro vus h
    refine ⟨vus.map (fun vu => convertUserToUserWeatherDataC isURL geo wx (userToJS vu)),
      ?_, by simp, ?_, ?_⟩
    · simp [convertUsersToUserWeatherData, h]
    · intro raws hr
      subst hr
      simp only [parseUsers] at h
      by_cases hlen : 1 ≤ raws.length
      · rw [if_pos hlen] at h
        simp [parseUserList_length isURL raws vus h]
      · rw [if_neg hlen] at h
        simp at h
    · intro i hi hv
      simp [List.get_map]

/-- C6 counterexample: a non-empty array whose single element fails
user validation (an empty object) makes the whole batch reject, instead
of returning a same-length result list as the claim states; the
downstream services here never fail. -/
theorem convertUsers_element_aborts_cex :
    convertUsersToUserWeatherData isURL0 geoOk wxOk (JSValue.arr [JSValue.obj []])
      = Except.error (JSError.error "Invalid users array") := rfl

/-- C6 witness: a batch of one valid user converts to a one-element
result list. -/
theorem convertUsers_batch_witness :
    ∃ l, convertUsersToUserWeatherData isURL0 geoOk wxOk (JSValue.arr [validRawUser])
        = Except.ok l ∧ l.length = 1 := by
  obtain ⟨l, h1, h2, _, _⟩ :=
    (convertUsers_batch_spec isURL0 geoOk wxOk (JSValue.arr [validRawUser])).2 [validUser0] rfl
  exact ⟨l, h1, by simpa using h2⟩

/-- C8 (amended): the TypeScript getCachedUsers performs only a basic
shape check, not users-list schema validation: a cached array passing
the basic check (non-empty, first element with truthy name and location
properties) is returned as-is even when it fails validateUsers, with
the entry left in place; a cached array failing the basic check is
removed and null returned.  Only the compiled dist variant removes the
entry and returns null whenever a (truthy) stored value fails
validateUsers. -/
theorem getCachedUsers_validation_policy (isURL : String → Bool) (cache : Option JSValue) :
    (∀ v, cache = some v → jsTruthy v = true → parseUsers isURL v = none →
        getCachedUsersC isURL cache = (none, none))
    ∧ (∀ elems, (getCachedUsers cache).1 = some elems →
        getCachedUsers cache = (some elems, cache))
    ∧ ∀ v elems, cache = some v → v = JSValue.arr elems →
        basicLooksLikeUsers elems ≠ Except.ok true →
        getCachedUsers cache = (none, none) := by
  refine ⟨?_, fun elems h => getCachedUsers_some cache elems h, ?_⟩
  · intro v hv htr hnp
    subst hv
    simp [getCachedUsersC, htr, hnp]
  · intro v elems hv harr hb
    subst hv
    subst harr
    simp only [getCachedUsers, Option.getD]
    rcases hbb : basicLooksLikeUsers elems with u | bb
    · simp
    · cases bb
      · simp
      · exact absurd hbb hb

/-- C8 counterexample: a cached array whose element fails validateUsers
but has truthy name and location properties is returned to the caller
unchanged by getCachedUsers, with the corrupted entry left in the
cache. -/
theorem getCachedUsers_corrupt_returned_cex :
    parseUsers isURL0 corruptUsersValue = none
    ∧ getCachedUsers (some corruptUsersValue)
        = (some [JSValue.obj [("name", JSValue.str "x"), ("location", JSValue.str "y")]],
           some corruptUsersValue) :=
  ⟨rfl, rfl⟩

/-- C8 witness: an empty cached array fails the basic check and is
removed, with null returned. -/
theorem getCachedUsers_validation_policy_witness :
    getCachedUsers (some (JSValue.arr [])) = (none, none) :=
  (getCachedUsers_validation_policy isURL0 (some (JSValue.arr []))).2.2 (JSValue.arr []) []
    rfl rfl (by simp [basicLooksLikeUsers])

/-- C9 (confirmed): fetchFreshUsers removes the users cache entry
before any network attempt — its behavior is independent of the prior
cache contents — and when the call fails (after exhausting its
attempts) no users cache entry remains: the final error propagates with
the cache cleared, since each failed attempt leaves the cache
untouched. -/
theorem fetchFreshUsers_invalidate_policy (isURL : String → Bool)
    (fetch : Nat → Except JSError JSValue) (opts : RetryOptions) (cache : Option JSValue) :
    fetchFreshUsers isURL fetch opts cache = fetchFreshUsers isURL fetch opts none
    ∧ (exceptOk (fetchFreshUsers isURL fetch opts cache).1 = false →
        (fetchFreshUsers isURL fetch opts cache).2.1 = none) := by
  refine ⟨rfl, ?_⟩
  intro h
  exact retryGo_state_of_error (fetchUsersOp isURL fetch) opts.baseDelay opts.maxDelay
    (fun k s hk => fetchUsersOp_state_of_error isURL fetch k s hk)
    opts.maxAttempts.toNat 1 (JSError.error "Unknown error") none h

/-- C9 witness: an always-failing fetch with a stale entry present at
call time ends with the error propagated and no cache entry. -/
theorem fetchFreshUsers_invalidate_policy_witness :
    exceptOk (fetchFreshUsers isURL0 fetchFail ⟨3, 100, 5000⟩ (some corruptUsersValue)).1 = false
    ∧ (fetchFreshUsers isURL0 fetchFail ⟨3, 100, 5000⟩ (some corruptUsersValue)).2.1 = none :=
  ⟨rfl, (fetchFreshUsers_invalidate_policy isURL0 fetchFail ⟨3, 100, 5000⟩
      (some corruptUsersValue)).2 rfl⟩

/-- C7 (amended): getUsers serves from the cache exactly when the
cached value passes getCachedUsers' basic shape check (not full schema
validation) with at least count entries — returning the first count
cached entries with zero network attempts and the cache untouched;
when the cache read yields nothing or fewer than count entries, it
falls back to the retrying fetch (at least one network attempt when
maxAttempts is at least 1), and a successful fetch leaves the cache
overwritten with exactly the newly validated users returned. -/
theorem getUsers_cache_policy (isURL : String → Bool) (fetch : Nat → Except JSError JSValue)
    (opts : RetryOptions) (count : Nat) (cache : Option JSValue) :
    (∀ elems, (getCachedUsers cache).1 = some elems → count ≤ elems.length →
        getUsers isURL fetch opts count cache = (Except.ok (elems.take count), cache, 0))
    ∧ (((getCachedUsers cache).1 = none ∨
        ∃ elems, (getCachedUsers cache).1 = some elems ∧ elems.length < count) →
        (1 ≤ opts.maxAttempts → 1 ≤ (getUsers isURL fetch opts count cache).2.2)
        ∧ ∀ L, (getUsers isURL fetch opts count cache).1 = Except.ok L →
            (∃ us : List User, L = us.map userToJS)
            ∧ (getUsers isURL fetch opts count cache).2.1 = some (JSValue.arr L)) := by
  have hpres : ∀ k s, exceptOk ((fetchUsersOp isURL fetch) k s).1 = false →
      ((fetchUsersOp isURL fetch) k s).2 = s :=
    fun k s hk => fetchUsersOp_state_of_error isURL fetch k s hk
  constructor
  · intro elems hsome hcount
    have hc := getCachedUsers_some cache elems hsome
    simp [getUsers, hc, hcount]
  · intro hpath
    have hfe : getUsers isURL fetch opts count cache
        = ((fetchFreshUsers isURL fetch opts none).1.map (fun us => us.map userToJS),
           (fetchFreshUsers isURL fetch opts none).2.1,
           (fetchFreshUsers isURL fetch opts none).2.2.2) := by
      rcases hpath with hnone | ⟨elems, hsome, hlt⟩
      · simp [getUsers, hnone]
        exact ⟨rfl, rfl, rfl⟩
      · have hc := getCachedUsers_some cache elems hsome
        simp [getUsers, hc, Nat.not_le.mpr hlt]
        exact ⟨rfl, rfl, rfl⟩
    rw [hfe]
    constructor
    · intro hma
      exact retryGo_invocations_pos (fetchUsersOp isURL fetch) opts.baseDelay opts.maxDelay
        opts.maxAttempts.toNat 1 (JSError.error "Unknown error") none (by omega)
    · intro L hL
      rcases hF : (fetchFreshUsers isURL fetch opts none).1 with e | us
      · rw [hF] at hL
        simp [Except.map] at hL
      · rw [hF] at hL
        simp [Except.map] at hL
        obtain ⟨k, hk1, hk2⟩ :=
          retryGo_state_of_ok (fetchUsersOp isURL fetch) opts.baseDelay opts.maxDelay hpres
            opts.maxAttempts.toNat 1 (JSError.error "Unknown error") none us hF
        have hshape := fetchUsersOp_ok isURL fetch k none
          ((fetchFreshUsers isURL fetch opts none).2.1) us hk2
        refine ⟨⟨us, hL.symm⟩, ?_⟩
        rw [hshape, ← hL]

/-- C7 counterexample: a cached value that fails validateUsers but
passes the basic shape check, with enough entries, is served from the
cache with zero network attempts — no fresh fetch happens and the cache
is not overwritten, contradicting the claim for invalid caches. -/
theorem getUsers_invalid_cache_cex :
    parseUsers isURL0 corruptUsersValue = none
    ∧ getUsers isURL0 fetchFail ⟨3, 100, 5000⟩ 1 (some corruptUsersValue)
        = (Except.ok [JSValue.obj [("name", JSValue.str "x"), ("location", JSValue.str "y")]],
           some corruptUsersValue, 0) :=
  ⟨rfl, rfl⟩

/-- C7 witness: a basic-check-passing one-entry cache serves a request
for one user with no network attempt. -/
theorem getUsers_cache_policy_witness :
    getUsers isURL0 fetchFail ⟨3, 100, 5000⟩ 1 (some (JSValue.arr [validRawUser]))
      = (Except.ok [validRawUser], some (JSValue.arr [validRawUser]), 0) :=
  (getUsers_cache_policy isURL0 fetchFail ⟨3, 100, 5000⟩ 1
    (some (JSValue.arr [validRawUser]))).1 [validRawUser] rfl (by decide)
